import Mathlib

/-!
Verification development for the "Replika-Code-Audit-Solution" desktop audit tool
(single Python source file `Replika-Code-Audit-Solution.py`).

Shallow embedding conventions:
* Python strings are modelled as `List Char`; Python bytes as `List Nat`.
* Python regular-expression matching for the two fixed patterns of the source
  (the fenced HTML block and the `<title>` pair) is modelled by dedicated
  leftmost-match scanners with the lazy-quantifier semantics of `re.search`.
* Case folding (`str.lower`, `re.IGNORECASE`) and whitespace (`\s`, `str.strip`)
  are modelled over the ASCII range, which covers every character of the fixed
  patterns of the source.
* Effects (file system, network, clock) are supplied through an explicit
  environment record `Env`; the worker body `AuditWorker.run` is a total
  function from the environment to the list of Qt signals it emits, the file it
  writes, and whether the network was called.  Totality of this function is the
  embedding of "no exception escapes the `try/except` of `AuditWorker.run`".
* `hashlib.sha256(x).hexdigest()` is an external primitive; the embedding
  records `x`, the exact byte string handed to it (field `sha256_input`).
-/

/-! ## Character and string primitives -/

/-- ASCII whitespace as matched by Python `\s` and stripped by `str.strip`
(space, tab, newline, carriage return, vertical tab, form feed). -/
def isPySpace (c : Char) : Bool :=
  c = ' ' || c = '\t' || c = '\n' || c = '\r' || c = '\x0b' || c = '\x0c'

/-- Python `str.strip()`: remove leading and trailing whitespace. -/
def pyStrip (s : List Char) : List Char :=
  ((s.dropWhile isPySpace).reverse.dropWhile isPySpace).reverse

/-- ASCII lower-casing of one character (model of Python case folding for the
ASCII-only patterns used by the source). -/
def lowerChar (c : Char) : Char :=
  if 65 ≤ c.toNat ∧ c.toNat ≤ 90 then Char.ofNat (c.toNat + 32) else c

/-- ASCII lower-casing of a string, model of `str.lower()`. -/
def lowerStr (s : List Char) : List Char := s.map lowerChar

/-- Case-insensitive literal match at the front of the input.  On success it
returns the actually matched input characters together with the rest of the
input (the matched characters keep their original case, as a regex capture
group does). -/
def stripPrefixCI : List Char → List Char → Option (List Char × List Char)
  | [], s => some ([], s)
  | _ :: _, [] => none
  | p :: ps, c :: cs =>
    if lowerChar c = lowerChar p then
      match stripPrefixCI ps cs with
      | some (m, r) => some (c :: m, r)
      | none => none
    else none

/-! ## `sanitize_filename` (source lines 181-186) -/

/-- Characters removed by the regex `[\\/*?:"<>|]+` of `sanitize_filename`. -/
def isForbiddenFilenameChar (c : Char) : Bool :=
  c = '\\' || c = '/' || c = '*' || c = '?' || c = ':' || c = '"' ||
  c = '<' || c = '>' || c = '|'

/-- Model of `re.sub(r'[\\/*?:"<>|]+', '', s)`: every occurrence of a run of
forbidden characters is replaced by the empty string, i.e. each forbidden
character is removed. -/
def removeForbidden (s : List Char) : List Char :=
  s.filter (fun c => !isForbiddenFilenameChar c)

/-- Helper for `collapseSpaces`; the flag records whether the previous
character belonged to a whitespace run that has already produced its
underscore. -/
def collapseSpacesAux : Bool → List Char → List Char
  | _, [] => []
  | inRun, c :: cs =>
    if isPySpace c then
      if inRun then collapseSpacesAux true cs
      else '_' :: collapseSpacesAux true cs
    else c :: collapseSpacesAux false cs

/-- Model of `re.sub(r'\s+', '_', s)`: each maximal whitespace run becomes one
underscore. -/
def collapseSpaces (s : List Char) : List Char := collapseSpacesAux false s

/-- `CONFIG["MAX_FILENAME_LENGTH"]` (source line 63). -/
def MAX_FILENAME_LENGTH : Nat := 150

/-- `sanitize_filename` (source lines 181-186).  The `datetime.now()` value
used by the empty-name fallback is passed in explicitly as `nowTs` (the
`%Y%m%d_%H%M%S`-formatted current time). -/
def sanitize_filename (nowTs : List Char) (name : List Char) : List Char :=
  let name0 := if name = [] then "audit_report_".data ++ nowTs else name
  let name1 := removeForbidden name0
  let name2 := collapseSpaces name1
  name2.take MAX_FILENAME_LENGTH

/-! ## Text-mode file reading (source lines 189-205)

`open(file_path, 'r', encoding='utf-8', errors='ignore')` decodes the raw
bytes with invalid sequences dropped and then applies universal-newline
translation.  The decoder below skips exactly one byte at an invalid position;
because every continuation byte is itself an invalid start byte, this produces
the same character stream as CPython's "ignore" error handler. -/

/-- UTF-8 continuation byte (`0x80`-`0xBF`). -/
def isUtf8Cont (b : Nat) : Bool := 128 ≤ b && b ≤ 191

/-- Validity of the second and third byte of a three-byte UTF-8 sequence
(excluding overlong forms and surrogates, as CPython does). -/
def utf8Valid3 (b1 b2 b3 : Nat) : Bool :=
  isUtf8Cont b3 &&
  (if b1 = 224 then 160 ≤ b2 && b2 ≤ 191
   else if b1 = 237 then 128 ≤ b2 && b2 ≤ 159
   else isUtf8Cont b2)

/-- Validity of the trailing bytes of a four-byte UTF-8 sequence. -/
def utf8Valid4 (b1 b2 b3 b4 : Nat) : Bool :=
  isUtf8Cont b3 && isUtf8Cont b4 &&
  (if b1 = 240 then 144 ≤ b2 && b2 ≤ 191
   else if b1 = 244 then 128 ≤ b2 && b2 ≤ 143
   else isUtf8Cont b2)

/-- One step of UTF-8 decoding: given the first byte and the following bytes,
return the decoded character (or `none` when the position is invalid and the
first byte is skipped) and how many bytes beyond the first are consumed. -/
def utf8Head (b1 : Nat) (rest : List Nat) : Option Char × Nat :=
  if b1 < 128 then (some (Char.ofNat b1), 0)
  else if 194 ≤ b1 && b1 ≤ 223 then
    match rest with
    | b2 :: _ =>
      if isUtf8Cont b2 then (some (Char.ofNat ((b1 - 192) * 64 + (b2 - 128))), 1)
      else (none, 0)
    | [] => (none, 0)
  else if 224 ≤ b1 && b1 ≤ 239 then
    match rest with
    | b2 :: b3 :: _ =>
      if utf8Valid3 b1 b2 b3 then
        (some (Char.ofNat ((b1 - 224) * 4096 + (b2 - 128) * 64 + (b3 - 128))), 2)
      else (none, 0)
    | _ => (none, 0)
  else if 240 ≤ b1 && b1 ≤ 244 then
    match rest with
    | b2 :: b3 :: b4 :: _ =>
      if utf8Valid4 b1 b2 b3 b4 then
        (some (Char.ofNat ((b1 - 240) * 262144 + (b2 - 128) * 4096 +
            (b3 - 128) * 64 + (b4 - 128))), 3)
      else (none, 0)
    | _ => (none, 0)
  else (none, 0)

/-- Driver for UTF-8 decoding; the fuel (always instantiated with the length
of the byte string, an upper bound on the number of decoding steps) makes the
recursion structural. -/
def utf8DecodeGo : Nat → List Nat → List Char
  | 0, _ => []
  | _, [] => []
  | fuel + 1, b1 :: rest =>
    match utf8Head b1 rest with
    | (some c, k) => c :: utf8DecodeGo fuel (rest.drop k)
    | (none, k) => utf8DecodeGo fuel (rest.drop k)

/-- UTF-8 decoding with `errors='ignore'`: at an invalid position exactly one
byte is skipped; because every continuation byte is itself an invalid start
byte, this produces the same character stream as CPython's "ignore" error
handler. -/
def utf8DecodeIgnore (bs : List Nat) : List Char := utf8DecodeGo bs.length bs

/-- Universal-newline translation done by text-mode `open`: `\r\n` and a lone
`\r` both become `\n`. -/
def translateNewlines : List Char → List Char
  | [] => []
  | [c] => if c = '\r' then ['\n'] else [c]
  | c1 :: c2 :: rest =>
    if c1 = '\r' then
      if c2 = '\n' then '\n' :: translateNewlines rest
      else '\n' :: translateNewlines (c2 :: rest)
    else c1 :: translateNewlines (c2 :: rest)

/-- UTF-8 encoding of one scalar value (`str.encode('utf-8', 'ignore')`;
Lean `Char` never holds a surrogate, so nothing is ever dropped). -/
def utf8EncodeChar (c : Char) : List Nat :=
  if c.toNat < 128 then [c.toNat]
  else if c.toNat < 2048 then [192 + c.toNat / 64, 128 + c.toNat % 64]
  else if c.toNat < 65536 then
    [224 + c.toNat / 4096, 128 + (c.toNat / 64) % 64, 128 + c.toNat % 64]
  else
    [240 + c.toNat / 262144, 128 + (c.toNat / 4096) % 64,
     128 + (c.toNat / 64) % 64, 128 + c.toNat % 64]

/-- UTF-8 encoding of a string. -/
def utf8Encode (s : List Char) : List Nat := (s.map utf8EncodeChar).flatten

/-- Number of lines as computed by `len(content.splitlines())` for content in
which `\n` is the only line break (the situation after universal-newline
translation). -/
def countSplitlines (s : List Char) : Nat :=
  if s = [] then 0
  else s.count '\n' + (if s.getLast? = some '\n' then 0 else 1)

/-- The byte string handed to `hashlib.sha256` by `get_file_metadata`:
`content.encode('utf-8', 'ignore')` where `content` is the decoded,
newline-translated text read from the file. -/
def sha256InputBytes (fileBytes : List Nat) : List Nat :=
  utf8Encode (translateNewlines (utf8DecodeIgnore fileBytes))

/-! ## Path helpers (POSIX `os.path`) -/

/-- `os.path.basename` on a POSIX path. -/
def basename (p : List Char) : List Char :=
  (p.reverse.takeWhile (fun c => c != '/')).reverse

/-- `os.path.dirname` on a POSIX path (simplified: the part before the last
separator, empty when there is none). -/
def dirname (p : List Char) : List Char :=
  p.take (p.length - (basename p).length - 1)

/-- `os.path.join` for one extra component. -/
def pathJoin (a b : List Char) : List Char :=
  if a = [] then b
  else if a.getLast? = some '/' then a ++ b
  else a ++ '/' :: b

/-- The stem produced by `os.path.splitext(b)[0]` (a leading run of dots never
starts an extension). -/
def splitextStem (b : List Char) : List Char :=
  let lead := b.takeWhile (fun c => c == '.')
  let rest := b.drop lead.length
  let ext := rest.reverse.takeWhile (fun c => c != '.')
  if ext.length = rest.length then b
  else lead ++ rest.take (rest.length - ext.length - 1)

/-! ## Data model -/

/-- The dictionary returned by `get_file_metadata` (source lines 194-202).
The source stores `hashlib.sha256(x).hexdigest()`; the field `sha256_input`
records `x`, the byte string the external hash primitive is applied to. -/
structure FileMeta where
  full_path : List Char
  filename : List Char
  size_bytes : Nat
  lines : Nat
  sha256_input : List Nat
  modified_time : List Char
  content_for_prompt : List Char

/-- Result of the blocking `model.generate_content` call as seen by
`send_code_to_gemini`: a returned response (with its `text` attribute,
defaulting to the empty string) or one of the caught exception classes. -/
inductive NetResult where
  | text (s : List Char)
  | permissionDenied
  | deadlineExceeded
  | otherError (excName : List Char)
deriving DecidableEq

/-- Environment of one `AuditWorker`: everything the surrounding process and
operating system supply during `run`.  `fileBytes = none` models an `OSError`
while opening/reading the file; `writeOk = false` models a failure of
`os.makedirs`/`open`/`write` when saving (with `writeErrMsg` the formatted
`f"({type(e).__name__}): {e}"` description of that exception); `nowTs` is the
`%Y%m%d_%H%M%S` rendering of `datetime.now()`. -/
structure Env where
  filePath : List Char
  fileBytes : Option (List Nat)
  fileSize : Nat
  fileMTime : List Char
  libraryInstalled : Bool
  apiKey : List Char
  configureOk : Bool
  net : NetResult
  userPrompt : List Char
  writeOk : Bool
  writeErrMsg : List Char
  nowTs : List Char

/-- `get_file_metadata` (source lines 189-205): `None` on a read failure,
otherwise the metadata record over the decoded text content. -/
def get_file_metadata (env : Env) : Option FileMeta :=
  match env.fileBytes with
  | none => none
  | some bs =>
    let content := translateNewlines (utf8DecodeIgnore bs)
    some {
      full_path := env.filePath
      filename := basename env.filePath
      size_bytes := env.fileSize
      lines := countSplitlines content
      sha256_input := utf8Encode content
      modified_time := env.fileMTime
      content_for_prompt := content }

/-! ## Availability of the AI library (source lines 73-96) -/

/-- `GOOGLE_AI_AVAILABLE`: true exactly when the library imports, the
`GEMINI_API_KEY` environment variable is non-empty, and `genai.configure`
succeeds. -/
def google_ai_available (libraryInstalled : Bool) (apiKey : List Char)
    (configureOk : Bool) : Bool :=
  libraryInstalled && !apiKey.isEmpty && configureOk

/-- `GOOGLE_AI_AVAILABLE` computed from an `Env`. -/
def envAvailable (env : Env) : Bool :=
  google_ai_available env.libraryInstalled env.apiKey env.configureOk

/-! ## `send_code_to_gemini` (source lines 141-178)

The function always returns a string: genuine response text, or a description
beginning with `"Erro:"` for each failure case.  The network call happens only
on the `available` path (the guard at lines 143-145 returns first). -/

/-- Return value of `send_code_to_gemini`. -/
def send_code_to_gemini (available : Bool) (net : NetResult) : List Char :=
  if !available then
    "Erro: Funcionalidade de IA indisponível. Verifique a instalação e a API Key.".data
  else
    match net with
    | NetResult.text s =>
      let t := pyStrip s
      if t = [] then "Erro: A API da IA retornou uma resposta vazia.".data else t
    | NetResult.permissionDenied =>
      "Erro: Erro de Permissão/Autenticação com a API Gemini. A sua API Key é válida e está habilitada?".data
    | NetResult.deadlineExceeded =>
      "Erro: Timeout (400s) ao contatar a API Gemini. A rede está estável?".data
    | NetResult.otherError excName =>
      "Erro: Erro inesperado ao comunicar com a API: ".data ++ excName

/-! ## Prompt builder (source lines 310-382) -/

/-- The fixed persona text (source lines 333-335). -/
def system_instruction : List Char :=
  "Você é um Auditor de Código Sênior e Analista de Qualidade de Software. Sua tarefa é realizar uma análise crítica e detalhada do código-fonte fornecido, atuando como um revisor técnico (code reviewer) experiente e meticuloso. Seja objetivo, construtivo e preciso.".data

/-- Task-body text before the file name. -/
def mt_header : List Char :=
  "\n--- CÓDIGO-FONTE PARA ANÁLISE ---\nArquivo: `".data

/-- Task-body text between the file name and the file content (opens the
fenced code block). -/
def mt_fence_open : List Char :=
  "`\n```python\n".data

/-- Task-body text closing the fenced code block. -/
def mt_fence_close : List Char :=
  "\n```\n\n".data

/-- Introduction of the mandatory analysis points. -/
def mt_points_intro : List Char :=
  "--- PONTOS DE ANÁLISE OBRIGATÓRIOS ---\nAnalise o código acima e avalie CADA um dos seguintes pontos. Para cada ponto, forneça um status (Implementado ✅, Parcialmente Implementado ⚠️, Não Implementado ❌, ou Observação ℹ️), uma explicação detalhada e, quando relevante, inclua trechos de código como evidência (escapados para HTML).\n\n".data

/-- Mandatory analysis dimension 1. -/
def mt_point1 : List Char :=
  "1.  **Lógica de Negócio e Requisitos 🎯:** O código parece implementar uma lógica clara e coesa? Com base no código, qual parece ser o objetivo principal? Existem partes que parecem confusas, incompletas ou potencialmente incorretas em relação a um objetivo de negócio hipotético?\n\n".data

/-- Mandatory analysis dimension 2. -/
def mt_point2 : List Char :=
  "2.  **Qualidade e Boas Práticas (Clean Code) 🧼:** O código é legível e bem estruturado? Avalie o uso de nomes de variáveis e funções, comentários (são úteis ou apenas ruído?), complexidade de funções (são curtas e focadas?), e aderência geral aos princípios do Clean Code e PEP8.\n\n".data

/-- Mandatory analysis dimension 3 (with its three sub-bullets). -/
def mt_point3 : List Char :=
  "3.  **Segurança e Vulnerabilidades 🛡️:** Existem vulnerabilidades de segurança óbvias? Verifique a presença de: \n   - Chaves de API, senhas ou outras credenciais \x27hardcoded\x27 no código.\n   - Falta de validação de entradas (se aplicável).\n   - Uso de bibliotecas conhecidamente vulneráveis ou métodos inseguros (ex: `eval()`, `pickle` com dados não confiáveis).\n\n".data

/-- Mandatory analysis dimension 4. -/
def mt_point4 : List Char :=
  "4.  **Manutenibilidade e Escalabilidade 🏗️:** O código é fácil de manter e modificar? Avalie o nível de acoplamento entre os componentes, a modularidade e se o design permitiria adicionar novas funcionalidades ou escalar o desempenho sem uma refatoração massiva.\n\n".data

/-- Mandatory analysis dimension 5. -/
def mt_point5 : List Char :=
  "5.  **Tratamento de Erros e Resiliência 🩹:** Como o código lida com erros e exceções? Existe um tratamento adequado com blocos `try-except`? O logging é utilizado para registrar eventos importantes ou erros? O que aconteceria em um cenário de falha (ex: falha de rede, arquivo não encontrado)?\n\n".data

/-- Introduction of the user-criteria section, up to the opening quote of the
inserted criteria value. -/
def mt_user_intro : List Char :=
  "--- ANÁLISE ADICIONAL REQUISITADA PELO USUÁRIO ---\nAlém da análise padrão, verifique os seguintes pontos específicos solicitados pelo usuário:\n\n**Critérios do Usuário:** \"".data

/-- Placeholder inserted when the user supplied no criteria. -/
def mt_no_criteria : List Char :=
  "Nenhum critério adicional foi fornecido.".data

/-- The `main_task` segment (source lines 337-361). -/
def main_task (file_meta : FileMeta) (user_prompt_addition : List Char) : List Char :=
  mt_header ++ file_meta.filename ++ mt_fence_open ++ file_meta.content_for_prompt ++
    mt_fence_close ++ mt_points_intro ++ mt_point1 ++ mt_point2 ++ mt_point3 ++
    mt_point4 ++ mt_point5 ++ mt_user_intro ++
    (if user_prompt_addition = [] then mt_no_criteria else user_prompt_addition) ++
    "\"".data

/-- Output-format text before the first `{fn}` placeholder. -/
def ofi_part1 : List Char :=
  "\n--- FORMATO DE SAÍDA OBRIGATÓRIO: DOCUMENTO HTML5 ---\nA sua resposta DEVE ser um ÚNICO bloco ```html ... ``` contendo um documento HTML5 completo e bem formatado. NADA DEVE SER ESCRITO FORA DESTE BLOCO.\n\n**Estrutura do HTML:**\n1.  **`<head>`:** Inclua `<meta charset=\"UTF-8\">`, um `<title>` informativo como `Relatório de Auditoria: ".data

/-- Output-format text between the two `{fn}` placeholders. -/
def ofi_part2 : List Char :=
  "`, e um `<style>` CSS embutido com um design limpo e profissional (use cores como azul escuro, cinza, e destaques verde/amarelo/vermelho para status).\n2.  **`<body>`:**\n   - **Cabeçalho:** Título principal como `<h1>Relatório de Auditoria de Código: ".data

/-- Output-format text after the second `{fn}` placeholder. -/
def ofi_part3 : List Char :=
  "</h1>`.\n   - **Detalhes do Arquivo:** Uma tabela com os metadados: Nome, Tamanho, Linhas, SHA256, Data da Auditoria.\n   - **Sumário Geral:** Um parágrafo resumindo suas conclusões gerais sobre a qualidade do código.\n   - **Análise Detalhada:** Crie uma seção (ex: `div` com uma classe `card`) para CADA um dos pontos de análise obrigatórios e para a análise do usuário.\n     - Cada seção deve ter um `<h4>` com o título do ponto (ex: `<h4>🎯 Lógica de Negócio</h4>`).\n     - Inclua o status com seu emoji correspondente.\n     - Forneça sua análise detalhada em parágrafos.\n     - Mostre evidências de código dentro de `<pre><code>...</code></pre>`, garantindo que os caracteres HTML como `<` e `>` sejam escapados (`<`, `>`).\n   - **Rodapé:** Inclua um rodapé simples com `Gerado por Auditor de Código IA` e o ano.".data

/-- The `output_format_instruction` segment with its `.format(fn=...)`
substitution (source lines 363-379). -/
def output_format_instruction (file_meta : FileMeta) : List Char :=
  ofi_part1 ++ file_meta.filename ++ ofi_part2 ++ file_meta.filename ++ ofi_part3

/-- `build_audit_prompt` (source lines 310-382): the ordered list of the three
prompt segments. -/
def build_audit_prompt (file_meta : FileMeta) (user_prompt_addition : List Char) :
    List (List Char) :=
  [system_instruction,
   main_task file_meta user_prompt_addition,
   output_format_instruction file_meta]

/-! ## Response parsing (source lines 297-308)

`extract_html_from_markdown` searches for
`re.search(r"```html\s*(<!DOCTYPE html.*?>.*?</html>)\s*```", md, re.IGNORECASE | re.DOTALL)`.
The scanners below implement the leftmost-match, lazy-quantifier semantics of
that fixed pattern: the first position where the whole pattern matches wins;
inside a match, `.*?>` stops at the first `>`, and `.*?</html>` stops at the
first closing tag whose suffix `\s*```` also matches (a greedy `\s*` followed
by a literal that cannot start with whitespace never needs backtracking). -/

/-- Lazy `.*?>` : consume up to and including the first `>`. -/
def scanToGt : List Char → Option (List Char × List Char)
  | [] => none
  | c :: cs =>
    if c = '>' then some ([c], cs)
    else
      match scanToGt cs with
      | some (m, r) => some (c :: m, r)
      | none => none

/-- Lazy `.*?</html>` followed by `\s*```` : consume up to and including the
first case-insensitive `</html>` that is followed (after whitespace) by a
closing fence. -/
def scanToCloseHtml : List Char → Option (List Char)
  | [] => none
  | c :: cs =>
    match stripPrefixCI "</html>".data (c :: cs) with
    | some (m, rest) =>
      if "```".data.isPrefixOf (rest.dropWhile isPySpace) then some m
      else
        match scanToCloseHtml cs with
        | some m2 => some (c :: m2)
        | none => none
    | none =>
      match scanToCloseHtml cs with
      | some m2 => some (c :: m2)
      | none => none

/-- Attempt to match the whole fenced-block pattern at the current position,
returning the capture group (the document from `<!DOCTYPE html` through
`</html>`). -/
def tryFencedAt (s : List Char) : Option (List Char) :=
  match stripPrefixCI "```html".data s with
  | none => none
  | some (_, s1) =>
    match stripPrefixCI "<!DOCTYPE html".data (s1.dropWhile isPySpace) with
    | none => none
    | some (cap0, s2) =>
      match scanToGt s2 with
      | none => none
      | some (cap1, s3) =>
        match scanToCloseHtml s3 with
        | none => none
        | some cap2 => some (cap0 ++ cap1 ++ cap2)

/-- `re.search` for the fenced-block pattern: try every start position from
the left. -/
def searchFenced : List Char → Option (List Char)
  | [] => none
  | c :: cs =>
    match tryFencedAt (c :: cs) with
    | some g => some g
    | none => searchFenced cs

/-- `AuditWorker.extract_html_from_markdown` (source lines 297-303). -/
def extract_html_from_markdown (md_text : List Char) : Option (List Char) :=
  match searchFenced md_text with
  | some g => some (pyStrip g)
  | none =>
    if "<!doctype html".data.isPrefixOf (lowerStr (pyStrip md_text)) then
      some (pyStrip md_text)
    else none

/-- Lazy `(.*?)</title>` : the characters before the first case-insensitive
`</title>`. -/
def scanToCloseTitle : List Char → Option (List Char)
  | [] => none
  | c :: cs =>
    match stripPrefixCI "</title>".data (c :: cs) with
    | some _ => some []
    | none =>
      match scanToCloseTitle cs with
      | some m => some (c :: m)
      | none => none

/-- `re.search` for `<title>(.*?)</title>` (case-insensitive, dot-all). -/
def searchTitle : List Char → Option (List Char)
  | [] => none
  | c :: cs =>
    match stripPrefixCI "<title>".data (c :: cs) with
    | some (_, rest) =>
      match scanToCloseTitle rest with
      | some inner => some inner
      | none => searchTitle cs
    | none => searchTitle cs

/-- `AuditWorker.extract_title_from_html` (source lines 305-308). -/
def extract_title_from_html (html_content : List Char) : Option (List Char) :=
  (searchTitle html_content).map pyStrip

/-! ## The audit worker (source lines 246-295) -/

/-- The Qt signals an `AuditWorker` can emit (class `WorkerSignals`). -/
inductive Signal where
  | status (path msg : List Char)
  | finishedFile (path reportPath title : List Char)
  | errorFile (path msg : List Char)
deriving DecidableEq

/-- Terminal outcomes are exactly the `finished_file` and `error_file`
signals. -/
def isTerminalSignal : Signal → Bool
  | Signal.status _ _ => false
  | Signal.finishedFile _ _ _ => true
  | Signal.errorFile _ _ => true

/-- The path argument carried by a signal. -/
def signalPath : Signal → List Char
  | Signal.status p _ => p
  | Signal.finishedFile p _ _ => p
  | Signal.errorFile p _ => p

/-- Observable result of one `AuditWorker.run`: the emitted signals in order,
whether the network call was reached, and the report file written (path and
content), if any. -/
structure RunResult where
  signals : List Signal
  networkCalled : Bool
  written : Option (List Char × List Char)

/-- `AuditWorker.run` (source lines 256-295).  The whole body is wrapped in
`try/except Exception`, so the function is total: every branch ends in exactly
one terminal signal, and failures become `error_file` emissions carrying
`f"({type(e).__name__}): {e}"`. -/
def AuditWorker.run (env : Env) : RunResult :=
  let path := env.filePath
  let base := basename path
  match get_file_metadata env with
  | none =>
    { signals := [Signal.status path "Lendo arquivo...".data,
                  Signal.errorFile path "(ValueError): Falha ao ler metadados do arquivo.".data]
      networkCalled := false
      written := none }
  | some meta =>
    let _prompt := build_audit_prompt meta env.userPrompt
    let avail := envAvailable env
    let ai_response := send_code_to_gemini avail env.net
    let pre := [Signal.status path "Lendo arquivo...".data,
                Signal.status path "Construindo prompt...".data,
                Signal.status path "Enviando para IA...".data]
    if ai_response.isEmpty || "Erro:".data.isPrefixOf ai_response then
      { signals := pre ++
          [Signal.errorFile path ("(RuntimeError): Falha na API: ".data ++ ai_response)]
        networkCalled := avail
        written := none }
    else
      match extract_html_from_markdown ai_response with
      | none =>
        { signals := pre ++
            [Signal.status path "Gerando relatório...".data,
             Signal.errorFile path "(RuntimeError): A IA não retornou um bloco HTML válido.".data]
          networkCalled := avail
          written := none }
      | some html_content =>
        let report_title :=
          (extract_title_from_html html_content).getD ("Relatorio_Auditoria_".data ++ base)
        let audit_folder := pathJoin (dirname path) "auditoria-codigo".data
        let report_filename :=
          sanitize_filename env.nowTs (splitextStem base) ++ "_audit_".data ++
            env.nowTs ++ ".html".data
        let report_filepath := pathJoin audit_folder report_filename
        if env.writeOk then
          { signals := pre ++
              [Signal.status path "Gerando relatório...".data,
               Signal.status path "Salvando...".data,
               Signal.finishedFile path report_filepath report_title]
            networkCalled := avail
            written := some (report_filepath, html_content) }
        else
          { signals := pre ++
              [Signal.status path "Gerando relatório...".data,
               Signal.status path "Salvando...".data,
               Signal.errorFile path env.writeErrMsg]
            networkCalled := avail
            written := none }

/-! ## Dispatcher aggregation (source lines 519-577) -/

/-- The per-batch counters of `MainWindow` set up by `start_analysis`. -/
structure BatchState where
  files_to_process : Nat
  files_processed : Nat
deriving DecidableEq

/-- `MainWindow.update_overall_progress` (source lines 567-577): increment the
counter; the returned flag is the `files_processed == files_to_process` test
that guards the one-time batch-complete behaviour (UI unlock, final message,
dialog). -/
def update_overall_progress (s : BatchState) : BatchState × Bool :=
  let p := s.files_processed + 1
  ({ files_to_process := s.files_to_process, files_processed := p },
   p == s.files_to_process)

/-- Both `on_worker_finished` and `on_worker_error` end by calling
`update_overall_progress`; which outcome arrived is ignored by the counter.
Folding a list of received outcomes returns the final state and how many times
the batch-complete signal fired. -/
def processOutcomes : BatchState → List Signal → BatchState × Nat
  | s, [] => (s, 0)
  | s, _ :: rest =>
    let r1 := update_overall_progress s
    let r2 := processOutcomes r1.1 rest
    (r2.1, (if r1.2 then 1 else 0) + r2.2)

/-- The batch initialisation of `MainWindow.start_analysis` (source lines
519-533): `none` when the queue is empty or the AI is unavailable (the method
returns without starting any worker), otherwise counters `total = paths.length`
and `completed = 0`. -/
def start_analysis_state (googleAIAvailable : Bool) (paths : List (List Char)) :
    Option BatchState :=
  if paths.isEmpty then none
  else if !googleAIAvailable then none
  else some { files_to_process := paths.length, files_processed := 0 }

/-- `CONFIG["MAX_THREADS_DIVISOR"]` (source line 61). -/
def MAX_THREADS_DIVISOR : Nat := 2

/-- The worker cap computed in `MainWindow.__init__` (source line 398):
`max(1, os.cpu_count() // MAX_THREADS_DIVISOR) if os.cpu_count() else 2`,
where `os.cpu_count()` yields `none` when the count is undeterminable. -/
def max_threads (cpuCount : Option Nat) : Nat :=
  match cpuCount with
  | some n => if n ≠ 0 then max 1 (n / MAX_THREADS_DIVISOR) else 2
  | none => 2

/-! ## Concrete witness inputs -/

/-- Concrete metadata record used by witness instantiations. -/
def sampleMeta : FileMeta :=
  { full_path := "/tmp/demo.py".data
    filename := "demo.py".data
    size_bytes := 5
    lines := 1
    sha256_input := [112, 97, 115, 115]
    modified_time := "2024-01-01 00:00:00".data
    content_for_prompt := "pass".data }

/-- Concrete environment for the C6 witness: a two-byte ASCII file. -/
def envHashW : Env :=
  { filePath := "/tmp/a.py".data
    fileBytes := some [97, 98]
    fileSize := 2
    fileMTime := []
    libraryInstalled := true
    apiKey := "k".data
    configureOk := true
    net := NetResult.text []
    userPrompt := []
    writeOk := true
    writeErrMsg := []
    nowTs := [] }

/-- Concrete environment for the C7 witness: readable file, library present,
but the API key environment variable is empty. -/
def envNoKey : Env :=
  { filePath := "/tmp/w.py".data
    fileBytes := some [112, 97, 115, 115]
    fileSize := 4
    fileMTime := []
    libraryInstalled := true
    apiKey := []
    configureOk := true
    net := NetResult.text "unreached".data
    userPrompt := []
    writeOk := true
    writeErrMsg := []
    nowTs := "20240101_000000".data }

/-- Concrete environment for the C10 witness: everything healthy, but the
genuine completion text starts with the error prefix. -/
def envErroW : Env :=
  { filePath := "/tmp/e.py".data
    fileBytes := some [112, 97, 115, 115]
    fileSize := 4
    fileMTime := []
    libraryInstalled := true
    apiKey := "k".data
    configureOk := true
    net := NetResult.text "Erro: this is a genuine completion".data
    userPrompt := []
    writeOk := true
    writeErrMsg := []
    nowTs := "20240101_000000".data }

/-- Concrete environment for the C3 witness: a completion with no HTML
payload. -/
def envNoHtml : Env :=
  { filePath := "/tmp/n.py".data
    fileBytes := some [112, 97, 115, 115]
    fileSize := 4
    fileMTime := []
    libraryInstalled := true
    apiKey := "k".data
    configureOk := true
    net := NetResult.text "no html markup here".data
    userPrompt := []
    writeOk := true
    writeErrMsg := []
    nowTs := "20240101_000000".data }

/-! ## Helper lemmas -/

/-- Computing `Char.toNat` after `Char.ofNat` of a valid scalar value. -/
theorem charToNat_ofNat_of_valid {n : Nat} (hv : n.isValidChar) :
    (Char.ofNat n).toNat = n := by
  simp [Char.ofNat, hv, Char.ofNatAux, Char.toNat, UInt32.toNat]

/-- ASCII lower-casing can only produce a lowercase letter or leave the
character unchanged, so equality with a non-lowercase-letter target forces
equality of the characters themselves. -/
theorem eq_of_lowerChar_eq {c t : Char} (ht : t.toNat < 97 ∨ 122 < t.toNat)
    (h : lowerChar c = t) : c = t := by
  unfold lowerChar at h
  split at h
  · exfalso
    have hv : (c.toNat + 32).isValidChar := by
      left
      omega
    have h2 := charToNat_ofNat_of_valid hv
    rw [h] at h2
    omega
  · exact h

/-- Membership in the output of `collapseSpacesAux`. -/
theorem mem_collapseSpacesAux (b : Bool) (s : List Char) :
    ∀ c ∈ collapseSpacesAux b s, c = '_' ∨ (c ∈ s ∧ isPySpace c = false) := by
  induction s generalizing b with
  | nil => simp [collapseSpacesAux]
  | cons a s ih =>
    intro c hc
    unfold collapseSpacesAux at hc
    by_cases ha : isPySpace a = true
    · rw [if_pos ha] at hc
      by_cases hb : b = true
      · rw [if_pos hb] at hc
        rcases ih true c hc with h | ⟨h1, h2⟩
        · exact Or.inl h
        · exact Or.inr ⟨List.mem_cons_of_mem _ h1, h2⟩
      · rw [if_neg hb] at hc
        rcases List.mem_cons.1 hc with h | h
        · exact Or.inl h
        · rcases ih true c h with h | ⟨h1, h2⟩
          · exact Or.inl h
          · exact Or.inr ⟨List.mem_cons_of_mem _ h1, h2⟩
    · rw [if_neg ha] at hc
      rcases List.mem_cons.1 hc with h | h
      · subst h
        exact Or.inr ⟨List.mem_cons_self _ _, by revert ha; cases isPySpace c <;> simp⟩
      · rcases ih false c h with h | ⟨h1, h2⟩
        · exact Or.inl h
        · exact Or.inr ⟨List.mem_cons_of_mem _ h1, h2⟩

/-- `collapseSpacesAux` is the identity on whitespace-free strings. -/
theorem collapseSpacesAux_eq_self (b : Bool) (s : List Char)
    (h : ∀ c ∈ s, isPySpace c = false) : collapseSpacesAux b s = s := by
  induction s generalizing b with
  | nil => rfl
  | cons a s ih =>
    have ha := h a (List.mem_cons_self _ _)
    unfold collapseSpacesAux
    rw [if_neg (by simp [ha]), ih false (fun c hc => h c (List.mem_cons_of_mem _ hc))]

/-- A clean, short enough name is a fixed point of `sanitize_filename`. -/
theorem sanitize_filename_fixed (ts l : List Char) (hne : l ≠ [])
    (hforb : ∀ c ∈ l, isForbiddenFilenameChar c = false)
    (hsp : ∀ c ∈ l, isPySpace c = false)
    (hlen : l.length ≤ MAX_FILENAME_LENGTH) :
    sanitize_filename ts l = l := by
  simp only [sanitize_filename, removeForbidden, collapseSpaces, if_neg hne]
  rw [List.filter_eq_self.mpr (fun c hc => by simp [hforb c hc]),
    collapseSpacesAux_eq_self false l hsp, List.take_of_length_le hlen]

/-- Characters of a sanitized name are never forbidden and never whitespace. -/
theorem sanitize_filename_chars (ts name : List Char) :
    ∀ c ∈ sanitize_filename ts name,
      isForbiddenFilenameChar c = false ∧ isPySpace c = false := by
  intro c hc
  unfold sanitize_filename collapseSpaces at hc
  have hc2 := List.take_subset _ _ hc
  rcases mem_collapseSpacesAux false _ c hc2 with h | ⟨h1, h2⟩
  · subst h
    exact ⟨by decide, by decide⟩
  · have h3 := List.of_mem_filter h1
    refine ⟨?_, h2⟩
    revert h3
    cases isForbiddenFilenameChar c <;> simp

/-! ## C4: sanitize_filename -/

/-- C4 counterexample: `sanitize_filename` is not idempotent on every input.
The input `"/"` sanitizes to the empty string, and sanitizing the empty string
produces the timestamped fallback name instead of the empty string again
(shown here with the clock reading `20240101_000000`). -/
theorem C4_sanitize_counterexample :
    sanitize_filename "20240101_000000".data
        (sanitize_filename "20240101_000000".data "/".data) ≠
      sanitize_filename "20240101_000000".data "/".data := by decide

/-- C4 (amended): the output of `sanitize_filename` never contains any of the
characters `\ / * ? : " < > |` and never exceeds `MAX_FILENAME_LENGTH = 150`
characters, for every input; and `sanitize_filename` is idempotent on every
input whose sanitized result is non-empty. -/
theorem C4_sanitize_amended (nowTs name : List Char) :
    (sanitize_filename nowTs name ≠ [] →
      sanitize_filename nowTs (sanitize_filename nowTs name) =
        sanitize_filename nowTs name) ∧
    (∀ c ∈ sanitize_filename nowTs name, isForbiddenFilenameChar c = false) ∧
    (sanitize_filename nowTs name).length ≤ MAX_FILENAME_LENGTH := by
  have hlen : (sanitize_filename nowTs name).length ≤ MAX_FILENAME_LENGTH := by
    unfold sanitize_filename
    rw [List.length_take]
    exact Nat.min_le_left _ _
  refine ⟨?_, fun c hc => (sanitize_filename_chars nowTs name c hc).1, hlen⟩
  intro hne
  exact sanitize_filename_fixed nowTs _ hne
    (fun c hc => (sanitize_filename_chars nowTs name c hc).1)
    (fun c hc => (sanitize_filename_chars nowTs name c hc).2) hlen

/-- C4 amended witness at the concrete input `"my file?.py"`. -/
theorem C4_sanitize_amended_witness :
    sanitize_filename "20240101_000000".data
        (sanitize_filename "20240101_000000".data "my file?.py".data) =
      sanitize_filename "20240101_000000".data "my file?.py".data ∧
    sanitize_filename "20240101_000000".data "my file?.py".data = "my_file.py".data := by
  have h := C4_sanitize_amended "20240101_000000".data "my file?.py".data
  exact ⟨h.1 (by decide), by decide⟩

/-! ## C8: worker cap -/

/-- C8: the configured thread cap is `max 1 (n / 2)` for every reported CPU
count `n ≥ 1`, and it is still at least 1 when the CPU count is
undeterminable. -/
theorem C8_worker_cap :
    (∀ n : Nat, 1 ≤ n → max_threads (some n) = max 1 (n / 2)) ∧
    1 ≤ max_threads none := by
  constructor
  · intro n hn
    have hnz : n ≠ 0 := by omega
    simp [max_threads, MAX_THREADS_DIVISOR, hnz]
  · decide

/-- C8 witness at CPU counts 8 and 1 and at an undeterminable count. -/
theorem C8_worker_cap_witness :
    max_threads (some 8) = max 1 (8 / 2) ∧ max_threads (some 1) = max 1 (1 / 2) ∧
    1 ≤ max_threads none := by
  have h := C8_worker_cap
  exact ⟨h.1 8 (by decide), h.1 1 (by decide), h.2⟩

/-! ## C5 and C9: prompt builder -/

/-- C5: the prompt builder is deterministic — two invocations on identical
metadata and identical criteria text produce identical three-segment output.
The embedding of `build_audit_prompt` required no clock or randomness input:
its output depends only on the `FileMetadata` record and the criteria
string. -/
theorem C5_prompt_deterministic (m1 m2 : FileMeta) (c1 c2 : List Char)
    (hm : m1 = m2) (hc : c1 = c2) :
    build_audit_prompt m1 c1 = build_audit_prompt m2 c2 := by
  subst hm
  subst hc
  rfl

/-- C5 witness at a concrete metadata record and criteria string. -/
theorem C5_prompt_deterministic_witness :
    build_audit_prompt sampleMeta "check X".data =
      build_audit_prompt sampleMeta "check X".data :=
  C5_prompt_deterministic sampleMeta sampleMeta "check X".data "check X".data rfl rfl

/-- C9: the prompt is exactly three ordered segments; the second (task body)
contains the file name, then the full file content verbatim inside the fenced
code block, then the five fixed mandatory analysis dimensions in order, then
the user's criteria string — or the fixed placeholder when it is empty —
inside the closing quote. -/
theorem C9_prompt_structure (m : FileMeta) (c : List Char) :
    (build_audit_prompt m c).length = 3 ∧
    ∃ s1 s3 x1 x2 y1,
      build_audit_prompt m c =
        [s1,
         x1 ++ m.filename ++ mt_fence_open ++ m.content_for_prompt ++ mt_fence_close ++
           y1 ++ mt_point1 ++ mt_point2 ++ mt_point3 ++ mt_point4 ++ mt_point5 ++
           x2 ++ (if c = [] then mt_no_criteria else c) ++ "\"".data,
         s3] := by
  refine ⟨rfl, system_instruction, output_format_instruction m, mt_header,
    mt_user_intro, mt_points_intro, ?_⟩
  simp [build_audit_prompt, main_task, List.append_assoc]

/-! ## C6: content hash input -/

/-- Translation of newlines leaves a non-carriage-return head character in
place. -/
theorem translateNewlines_cons_of_ne (c : Char) (l : List Char) (h : c ≠ '\r') :
    translateNewlines (c :: l) = c :: translateNewlines l := by
  cases l with
  | nil => simp [translateNewlines, h]
  | cons d l => simp [translateNewlines, h]

/-- C6 counterexample: the hash is not computed over the exact bytes read.
For the two-byte file `\r\n`, text-mode reading translates the newline, so the
byte string handed to `hashlib.sha256` is the single byte `\n`. -/
theorem C6_hash_counterexample :
    sha256InputBytes [13, 10] = [10] ∧ sha256InputBytes [13, 10] ≠ [13, 10] := by
  decide

/-- On carriage-return-free ASCII byte strings the whole decode, translate,
re-encode pipeline is the identity. -/
theorem sha256InputBytes_of_ascii (b : List Nat)
    (hall : ∀ x ∈ b, x < 128 ∧ x ≠ 13) : sha256InputBytes b = b := by
  induction b with
  | nil => rfl
  | cons x b ih =>
    have hx := hall x (List.mem_cons_self _ _)
    have hdec : utf8DecodeIgnore (x :: b) = Char.ofNat x :: utf8DecodeIgnore b := by
      unfold utf8DecodeIgnore
      simp only [List.length_cons, utf8DecodeGo, utf8Head, hx.1, if_true, List.drop_zero]
    have hchar : (Char.ofNat x).toNat = x :=
      charToNat_ofNat_of_valid (Or.inl (by omega))
    have hne : Char.ofNat x ≠ '\r' := by
      intro hcr
      rw [hcr] at hchar
      exact hx.2 (hchar.symm.trans (by decide))
    have henc : utf8EncodeChar (Char.ofNat x) = [x] := by
      unfold utf8EncodeChar
      rw [hchar, if_pos hx.1]
    have ihb := ih (fun y hy => hall y (List.mem_cons_of_mem _ hy))
    unfold sha256InputBytes at ihb ⊢
    unfold utf8Encode at ihb ⊢
    rw [hdec, translateNewlines_cons_of_ne _ _ hne, List.map_cons,
      List.flatten_cons, henc, ihb]
    rfl

/-- C6 (amended): the stored content hash is computed over the UTF-8
re-encoding of the decoded, newline-translated text content (not over the raw
file bytes); this is a function of the bytes read, so re-reading the same
unchanged file reproduces the identical hash input, and for ASCII files
without carriage returns the hash input coincides with the exact bytes
read. -/
theorem C6_hash_amended (env : Env) (b : List Nat) (h : env.fileBytes = some b) :
    (∃ meta, get_file_metadata env = some meta ∧
      meta.sha256_input = sha256InputBytes b) ∧
    (∀ env2 : Env, env2.fileBytes = some b →
      ∃ meta2, get_file_metadata env2 = some meta2 ∧
        meta2.sha256_input = sha256InputBytes b) ∧
    ((∀ x ∈ b, x < 128 ∧ x ≠ 13) → sha256InputBytes b = b) := by
  have hgen : ∀ env2 : Env, env2.fileBytes = some b →
      ∃ meta2, get_file_metadata env2 = some meta2 ∧
        meta2.sha256_input = sha256InputBytes b := by
    intro env2 h2
    refine ⟨_, by rw [get_file_metadata, h2], rfl⟩
  exact ⟨hgen env h, hgen, sha256InputBytes_of_ascii b⟩

/-- C6 amended witness: for the ASCII file `ab`, the metadata record stores
exactly the bytes read as hash input. -/
theorem C6_hash_amended_witness :
    (get_file_metadata envHashW).map FileMeta.sha256_input = some [97, 98] ∧
    sha256InputBytes [97, 98] = [97, 98] := by
  have h := C6_hash_amended envHashW [97, 98] rfl
  obtain ⟨⟨meta, hm, hs⟩, -, hascii⟩ := h
  have hb : sha256InputBytes [97, 98] = [97, 98] := hascii (by decide)
  rw [hm]
  simp [hs, hb]

/-! ## Branch characterizations of `AuditWorker.run` -/

/-- Run result when reading the file metadata fails. -/
theorem run_meta_none (env : Env) (h : get_file_metadata env = none) :
    AuditWorker.run env =
      { signals := [Signal.status env.filePath "Lendo arquivo...".data,
          Signal.errorFile env.filePath
            "(ValueError): Falha ao ler metadados do arquivo.".data]
        networkCalled := false
        written := none } := by
  unfold AuditWorker.run
  rw [h]

/-- Run result when the completion-client return value is empty or starts with
the error prefix. -/
theorem run_api_fail (env : Env) (meta : FileMeta)
    (hm : get_file_metadata env = some meta)
    (hc : ((send_code_to_gemini (envAvailable env) env.net).isEmpty ||
      "Erro:".data.isPrefixOf (send_code_to_gemini (envAvailable env) env.net)) = true) :
    AuditWorker.run env =
      { signals := [Signal.status env.filePath "Lendo arquivo...".data,
          Signal.status env.filePath "Construindo prompt...".data,
          Signal.status env.filePath "Enviando para IA...".data,
          Signal.errorFile env.filePath
            ("(RuntimeError): Falha na API: ".data ++
              send_code_to_gemini (envAvailable env) env.net)]
        networkCalled := envAvailable env
        written := none } := by
  simp [AuditWorker.run, hm, hc]

/-- Run result when the completion text is accepted but holds no HTML
payload. -/
theorem run_no_html (env : Env) (meta : FileMeta)
    (hm : get_file_metadata env = some meta)
    (hc : ((send_code_to_gemini (envAvailable env) env.net).isEmpty ||
      "Erro:".data.isPrefixOf (send_code_to_gemini (envAvailable env) env.net)) = false)
    (hx : extract_html_from_markdown (send_code_to_gemini (envAvailable env) env.net) = none) :
    AuditWorker.run env =
      { signals := [Signal.status env.filePath "Lendo arquivo...".data,
          Signal.status env.filePath "Construindo prompt...".data,
          Signal.status env.filePath "Enviando para IA...".data,
          Signal.status env.filePath "Gerando relatório...".data,
          Signal.errorFile env.filePath
            "(RuntimeError): A IA não retornou um bloco HTML válido.".data]
        networkCalled := envAvailable env
        written := none } := by
  simp [AuditWorker.run, hm, hc, hx]

/-- Run result of a fully successful audit job. -/
theorem run_success (env : Env) (meta : FileMeta) (html : List Char)
    (hm : get_file_metadata env = some meta)
    (hc : ((send_code_to_gemini (envAvailable env) env.net).isEmpty ||
      "Erro:".data.isPrefixOf (send_code_to_gemini (envAvailable env) env.net)) = false)
    (hx : extract_html_from_markdown (send_code_to_gemini (envAvailable env) env.net) = some html)
    (hw : env.writeOk = true) :
    AuditWorker.run env =
      { signals := [Signal.status env.filePath "Lendo arquivo...".data,
          Signal.status env.filePath "Construindo prompt...".data,
          Signal.status env.filePath "Enviando para IA...".data,
          Signal.status env.filePath "Gerando relatório...".data,
          Signal.status env.filePath "Salvando...".data,
          Signal.finishedFile env.filePath
            (pathJoin (pathJoin (dirname env.filePath) "auditoria-codigo".data)
              (sanitize_filename env.nowTs (splitextStem (basename env.filePath)) ++
                "_audit_".data ++ env.nowTs ++ ".html".data))
            ((extract_title_from_html html).getD
              ("Relatorio_Auditoria_".data ++ basename env.filePath))]
        networkCalled := envAvailable env
        written := some
          (pathJoin (pathJoin (dirname env.filePath) "auditoria-codigo".data)
            (sanitize_filename env.nowTs (splitextStem (basename env.filePath)) ++
              "_audit_".data ++ env.nowTs ++ ".html".data), html) } := by
  simp [AuditWorker.run, hm, hc, hx, hw]

/-- Run result when saving the report fails. -/
theorem run_write_fail (env : Env) (meta : FileMeta) (html : List Char)
    (hm : get_file_metadata env = some meta)
    (hc : ((send_code_to_gemini (envAvailable env) env.net).isEmpty ||
      "Erro:".data.isPrefixOf (send_code_to_gemini (envAvailable env) env.net)) = false)
    (hx : extract_html_from_markdown (send_code_to_gemini (envAvailable env) env.net) = some html)
    (hw : env.writeOk = false) :
    AuditWorker.run env =
      { signals := [Signal.status env.filePath "Lendo arquivo...".data,
          Signal.status env.filePath "Construindo prompt...".data,
          Signal.status env.filePath "Enviando para IA...".data,
          Signal.status env.filePath "Gerando relatório...".data,
          Signal.status env.filePath "Salvando...".data,
          Signal.errorFile env.filePath env.writeErrMsg]
        networkCalled := envAvailable env
        written := none } := by
  simp [AuditWorker.run, hm, hc, hx, hw]

/-! ## C1: exactly one terminal outcome per job -/

/-- C1: for every environment (file readable or not, AI available or not,
network result arbitrary, write succeeding or not), one run of the audit
worker emits exactly one terminal signal — one `finished_file` or one
`error_file`, never both, never zero — and every emitted signal carries the
submitted file path.  `AuditWorker.run` is a total function, which embeds the
guarantee that no exception escapes the job boundary into the dispatcher. -/
theorem C1_worker_single_outcome (env : Env) :
    ((AuditWorker.run env).signals.countP isTerminalSignal) = 1 ∧
    ((AuditWorker.run env).signals.countP
      (fun sg => !(signalPath sg == env.filePath))) = 0 := by
  cases hm : get_file_metadata env with
  | none =>
    rw [run_meta_none env hm]
    simp [List.countP_cons, isTerminalSignal, signalPath]
  | some meta =>
    cases hc : ((send_code_to_gemini (envAvailable env) env.net).isEmpty ||
        "Erro:".data.isPrefixOf (send_code_to_gemini (envAvailable env) env.net)) with
    | true =>
      rw [run_api_fail env meta hm hc]
      simp [List.countP_cons, isTerminalSignal, signalPath]
    | false =>
      cases hx : extract_html_from_markdown
          (send_code_to_gemini (envAvailable env) env.net) with
      | none =>
        rw [run_no_html env meta hm hc hx]
        simp [List.countP_cons, isTerminalSignal, signalPath]
      | some html =>
        cases hw : env.writeOk with
        | true =>
          rw [run_success env meta html hm hc hx hw]
          simp [List.countP_cons, isTerminalSignal, signalPath]
        | false =>
          rw [run_write_fail env meta html hm hc hx hw]
          simp [List.countP_cons, isTerminalSignal, signalPath]

/-! ## C7: absent credential degrades to an unavailable failure -/

/-- C7: when the API key is absent (or the AI library is missing), a job that
runs on a readable file fails immediately with the service-unavailable
description: `GOOGLE_AI_AVAILABLE` is false, the completion client returns its
error value before any network call is attempted (`networkCalled = false`),
no report file is written, and the single terminal outcome is the `error_file`
signal carrying the unavailability message. -/
theorem C7_unavailable_failure (env : Env) (bs : List Nat)
    (hread : env.fileBytes = some bs)
    (hcred : env.apiKey = [] ∨ env.libraryInstalled = false) :
    envAvailable env = false ∧
    (AuditWorker.run env).networkCalled = false ∧
    (AuditWorker.run env).written = none ∧
    Signal.errorFile env.filePath
        ("(RuntimeError): Falha na API: ".data ++
          "Erro: Funcionalidade de IA indisponível. Verifique a instalação e a API Key.".data)
      ∈ (AuditWorker.run env).signals := by
  have havail : envAvailable env = false := by
    rcases hcred with h | h
    · simp [envAvailable, google_ai_available, h]
    · simp [envAvailable, google_ai_available, h]
  obtain ⟨meta, hm⟩ : ∃ meta, get_file_metadata env = some meta := by
    unfold get_file_metadata
    rw [hread]
    exact ⟨_, rfl⟩
  have hsend : send_code_to_gemini (envAvailable env) env.net =
      "Erro: Funcionalidade de IA indisponível. Verifique a instalação e a API Key.".data := by
    rw [havail]
    rfl
  have hc : ((send_code_to_gemini (envAvailable env) env.net).isEmpty ||
      "Erro:".data.isPrefixOf (send_code_to_gemini (envAvailable env) env.net)) = true := by
    rw [hsend]
    decide
  rw [run_api_fail env meta hm hc]
  refine ⟨havail, havail, rfl, ?_⟩
  rw [hsend]
  simp

/-- C7 witness at the concrete credential-free environment. -/
theorem C7_unavailable_failure_witness :
    envAvailable envNoKey = false ∧
    (AuditWorker.run envNoKey).networkCalled = false ∧
    (AuditWorker.run envNoKey).written = none ∧
    Signal.errorFile "/tmp/w.py".data
        ("(RuntimeError): Falha na API: ".data ++
          "Erro: Funcionalidade de IA indisponível. Verifique a instalação e a API Key.".data)
      ∈ (AuditWorker.run envNoKey).signals :=
  C7_unavailable_failure envNoKey [112, 97, 115, 115] rfl (Or.inl rfl)

/-! ## C10: the error-prefix convention misclassifies genuine completions -/

/-- C10: with a readable file, the calling step treats the completion as
failed exactly when the returned string is empty or starts with `"Erro:"`
(equivalently, the job never reaches the report-generation step); in that case
no report is written and the terminal outcome is the API-failure `error_file`.
Consequently a genuine completion whose stripped text itself starts with
`"Erro:"` makes the job fail even though the completion client encountered no
error. -/
theorem C10_erro_prefix_failure (env : Env) (bs : List Nat)
    (hread : env.fileBytes = some bs) :
    (((send_code_to_gemini (envAvailable env) env.net).isEmpty ||
        "Erro:".data.isPrefixOf (send_code_to_gemini (envAvailable env) env.net)) = true ↔
      Signal.status env.filePath "Gerando relatório...".data ∉
        (AuditWorker.run env).signals) ∧
    (((send_code_to_gemini (envAvailable env) env.net).isEmpty ||
        "Erro:".data.isPrefixOf (send_code_to_gemini (envAvailable env) env.net)) = true →
      (AuditWorker.run env).written = none ∧
      Signal.errorFile env.filePath
          ("(RuntimeError): Falha na API: ".data ++
            send_code_to_gemini (envAvailable env) env.net)
        ∈ (AuditWorker.run env).signals) ∧
    (∀ t, env.net = NetResult.text t →
      "Erro:".data.isPrefixOf (pyStrip t) = true →
      (AuditWorker.run env).written = none ∧
      Signal.status env.filePath "Gerando relatório...".data ∉
        (AuditWorker.run env).signals) := by
  obtain ⟨meta, hm⟩ : ∃ meta, get_file_metadata env = some meta := by
    unfold get_file_metadata
    rw [hread]
    exact ⟨_, rfl⟩
  have d1 : "Gerando relatório...".data ≠ "Lendo arquivo...".data := by decide
  have d2 : "Gerando relatório...".data ≠ "Construindo prompt...".data := by decide
  have d3 : "Gerando relatório...".data ≠ "Enviando para IA...".data := by decide
  cases hc : ((send_code_to_gemini (envAvailable env) env.net).isEmpty ||
      "Erro:".data.isPrefixOf (send_code_to_gemini (envAvailable env) env.net)) with
  | true =>
    have hnotin : Signal.status env.filePath "Gerando relatório...".data ∉
        (AuditWorker.run env).signals := by
      rw [run_api_fail env meta hm hc]
      simp [d1, d2, d3]
    refine ⟨by simp [hnotin], fun _ => ?_, fun t hnet hpre => ⟨?_, hnotin⟩⟩
    · rw [run_api_fail env meta hm hc]
      simp
    · rw [run_api_fail env meta hm hc]
  | false =>
    have hGer : Signal.status env.filePath "Gerando relatório...".data ∈
        (AuditWorker.run env).signals := by
      cases hx : extract_html_from_markdown
          (send_code_to_gemini (envAvailable env) env.net) with
      | none =>
        rw [run_no_html env meta hm hc hx]
        simp
      | some html =>
        cases hw : env.writeOk with
        | true =>
          rw [run_success env meta html hm hc hx hw]
          simp
        | false =>
          rw [run_write_fail env meta html hm hc hx hw]
          simp
    refine ⟨by simp [hGer], by simp, fun t hnet hpre => ?_⟩
    exfalso
    have hpre2 : "Erro:".data.isPrefixOf
        (send_code_to_gemini (envAvailable env) env.net) = true := by
      cases ha : envAvailable env with
      | true =>
        by_cases ht : pyStrip t = []
        · simp [send_code_to_gemini, hnet, ht]
        · simp [send_code_to_gemini, hnet, ht, hpre]
      | false =>
        simp [send_code_to_gemini]
    rw [hpre2] at hc
    simp at hc

/-- C10 witness: the genuine completion beginning with `Erro:` yields a failed
job with no written report. -/
theorem C10_erro_prefix_failure_witness :
    (AuditWorker.run envErroW).written = none ∧
    Signal.errorFile "/tmp/e.py".data
        ("(RuntimeError): Falha na API: ".data ++
          send_code_to_gemini (envAvailable envErroW) envErroW.net)
      ∈ (AuditWorker.run envErroW).signals :=
  (C10_erro_prefix_failure envErroW [112, 97, 115, 115] rfl).2.1 (by decide)

/-! ## C2: batch progress aggregation -/

/-- State evolution of the completion counter: each received outcome adds
exactly one, and the total is never touched. -/
theorem processOutcomes_state (T : Nat) (os : List Signal) :
    ∀ p : Nat, (processOutcomes ⟨T, p⟩ os).1 = ⟨T, p + os.length⟩ := by
  induction os with
  | nil =>
    intro p
    simp [processOutcomes]
  | cons a os ih =>
    intro p
    simp only [processOutcomes, update_overall_progress]
    rw [ih (p + 1)]
    simp only [List.length_cons]
    congr 1
    omega

/-- Projection form: the completion counter after a list of outcomes. -/
theorem processOutcomes_processed (T p : Nat) (os : List Signal) :
    (processOutcomes ⟨T, p⟩ os).1.files_processed = p + os.length := by
  rw [processOutcomes_state]

/-- The batch-complete test fires exactly on the step that moves the counter
from below the total to the total. -/
theorem processOutcomes_fired (T : Nat) (os : List Signal) :
    ∀ p : Nat, (processOutcomes ⟨T, p⟩ os).2 =
      if p < T ∧ T ≤ p + os.length then 1 else 0 := by
  induction os with
  | nil =>
    intro p
    have h : ¬(p < T ∧ T ≤ p) := by omega
    simp [processOutcomes, h]
  | cons a os ih =>
    intro p
    simp only [processOutcomes, update_overall_progress]
    rw [ih (p + 1)]
    simp only [List.length_cons]
    by_cases h1 : p + 1 = T
    · have hA : ¬(p + 1 < T ∧ T ≤ p + 1 + os.length) := by omega
      have hB : p < T ∧ T ≤ p + (os.length + 1) := by omega
      simp [h1, hA, hB]
    · by_cases h2 : p + 1 < T ∧ T ≤ p + 1 + os.length
      · have hB : p < T ∧ T ≤ p + (os.length + 1) := by omega
        simp [h1, h2, hB]
      · have hB : ¬(p < T ∧ T ≤ p + (os.length + 1)) := by omega
        simp [h1, h2, hB]

/-- C2: starting a non-empty batch initialises `completed = 0` and
`total = number of submitted paths`; every received outcome — success or
failure alike — increments `completed` by exactly one and leaves `total`
untouched; after `k ≤ total` outcomes the counter equals `k`, so it is
monotone and never exceeds the total when, as C1 guarantees, exactly one
outcome arrives per submitted path; and over a full batch of `total` outcomes
the batch-complete signal fires exactly once — on the last outcome, exactly
when `completed = total`. -/
theorem C2_progress_aggregation (paths : List (List Char)) (outcomes : List Signal)
    (hne : paths ≠ []) (hlen : outcomes.length = paths.length) :
    start_analysis_state true paths =
      some { files_to_process := paths.length, files_processed := 0 } ∧
    (∀ s : BatchState,
      (update_overall_progress s).1.files_processed = s.files_processed + 1 ∧
      (update_overall_progress s).1.files_to_process = s.files_to_process) ∧
    (∀ k, k ≤ outcomes.length →
      (processOutcomes ⟨paths.length, 0⟩ (outcomes.take k)).1.files_processed = k) ∧
    (∀ k,
      (processOutcomes ⟨paths.length, 0⟩ (outcomes.take k)).1.files_processed ≤
        (processOutcomes ⟨paths.length, 0⟩ (outcomes.take (k + 1))).1.files_processed) ∧
    (∀ k, k ≤ outcomes.length →
      (processOutcomes ⟨paths.length, 0⟩ (outcomes.take k)).1.files_processed ≤
        paths.length) ∧
    (processOutcomes ⟨paths.length, 0⟩ outcomes).2 = 1 ∧
    (∀ k, k < outcomes.length →
      (processOutcomes ⟨paths.length, 0⟩ (outcomes.take k)).2 = 0) := by
  have hT : 1 ≤ paths.length := by
    cases paths with
    | nil => exact absurd rfl hne
    | cons a l => simp
  refine ⟨?_, ?_, ?_, ?_, ?_, ?_, ?_⟩
  · simp [start_analysis_state, hne]
  · intro s
    simp [update_overall_progress]
  · intro k hk
    rw [processOutcomes_processed]
    simp only [List.length_take]
    omega
  · intro k
    rw [processOutcomes_processed, processOutcomes_processed]
    simp only [List.length_take]
    omega
  · intro k hk
    rw [processOutcomes_processed]
    simp only [List.length_take]
    omega
  · have h : 0 < paths.length ∧ paths.length ≤ 0 + outcomes.length := by omega
    rw [processOutcomes_fired, if_pos h]
  · intro k hk
    have h : ¬(0 < paths.length ∧ paths.length ≤ 0 + (outcomes.take k).length) := by
      simp only [List.length_take]
      omega
    rw [processOutcomes_fired, if_neg h]

/-- C2 witness: a two-file batch receiving one success and one failure. -/
theorem C2_progress_aggregation_witness :
    start_analysis_state true ["a.py".data, "b.py".data] =
      some { files_to_process := 2, files_processed := 0 } ∧
    (processOutcomes { files_to_process := 2, files_processed := 0 }
      [Signal.finishedFile "a.py".data "r".data "t".data,
       Signal.errorFile "b.py".data "m".data]).1.files_processed = 2 ∧
    (processOutcomes { files_to_process := 2, files_processed := 0 }
      [Signal.finishedFile "a.py".data "r".data "t".data,
       Signal.errorFile "b.py".data "m".data]).2 = 1 := by
  have h := C2_progress_aggregation ["a.py".data, "b.py".data]
    [Signal.finishedFile "a.py".data "r".data "t".data,
     Signal.errorFile "b.py".data "m".data] (by simp) rfl
  refine ⟨h.1, ?_, h.2.2.2.2.2.1⟩
  have h2 := h.2.2.1 2 (by simp)
  simpa using h2

/-! ## C3: response-payload extraction -/

/-- A case-insensitive literal match succeeds on any string whose
lower-casing agrees with the pattern's. -/
theorem stripPrefixCI_of_lowerStr (pat : List Char) :
    ∀ m r : List Char, lowerStr m = lowerStr pat →
      stripPrefixCI pat (m ++ r) = some (m, r) := by
  induction pat with
  | nil =>
    intro m r h
    have hm : m = [] := by
      simpa [lowerStr] using h
    subst hm
    rfl
  | cons p ps ih =>
    intro m r h
    cases m with
    | nil => simp [lowerStr] at h
    | cons c m' =>
      simp only [lowerStr, List.map_cons, List.cons.injEq] at h
      obtain ⟨h1, h2⟩ := h
      rw [List.cons_append]
      unfold stripPrefixCI
      rw [if_pos h1, ih m' r h2]

/-- A case-insensitive literal match fails when already the first characters
disagree after lower-casing. -/
theorem stripPrefixCI_cons_ne (p : Char) (ps : List Char) (c : Char) (cs : List Char)
    (h : lowerChar c ≠ lowerChar p) :
    stripPrefixCI (p :: ps) (c :: cs) = none := by
  unfold stripPrefixCI
  rw [if_neg h]

/-- Dropping whitespace walks over a block of whitespace characters. -/
theorem dropWhile_append_of_all (p : Char → Bool) (ws l : List Char)
    (h : ∀ c ∈ ws, p c = true) :
    List.dropWhile p (ws ++ l) = List.dropWhile p l := by
  induction ws with
  | nil => rfl
  | cons a ws ih =>
    rw [List.cons_append, List.dropWhile_cons, if_pos (h a (List.mem_cons_self _ _)),
      ih (fun c hc => h c (List.mem_cons_of_mem _ hc))]

/-- A list is a Boolean prefix of itself extended by anything. -/
theorem isPrefixOf_append_self (l t : List Char) : l.isPrefixOf (l ++ t) = true := by
  induction l with
  | nil => cases t <;> rfl
  | cons a l ih =>
    rw [List.cons_append]
    simp [List.isPrefixOf, ih]

/-- The lazy `.*?>` scanner consumes exactly up to the first `>`. -/
theorem scanToGt_spec (d1 : List Char) (r : List Char)
    (h : ∀ c ∈ d1, c ≠ '>') :
    scanToGt (d1 ++ '>' :: r) = some (d1 ++ ['>'], r) := by
  induction d1 with
  | nil =>
    rw [List.nil_append, scanToGt]
    simp
  | cons c d1' ih =>
    rw [List.cons_append, scanToGt, if_neg (by simpa using h c (List.mem_cons_self _ _)),
      ih (fun x hx => h x (List.mem_cons_of_mem _ hx))]
    simp

/-- Peeling one cons off a lower-cased string whose target head is not a
lowercase letter. -/
theorem lowerStr_eq_cons {m : List Char} {d : Char} {rest : List Char}
    (hd : d.toNat < 97 ∨ 122 < d.toNat)
    (h : lowerStr m = d :: rest) :
    ∃ m', m = d :: m' ∧ lowerStr m' = rest := by
  cases m with
  | nil => simp [lowerStr] at h
  | cons c m' =>
    simp only [lowerStr, List.map_cons, List.cons.injEq] at h
    obtain ⟨h1, h2⟩ := h
    exact ⟨m', by rw [eq_of_lowerChar_eq hd h1], h2⟩

/-- Peeling the final character off a lower-cased string whose target last
character is not a lowercase letter. -/
theorem lowerStr_eq_concat {m : List Char} {init : List Char} {d : Char}
    (hd : d.toNat < 97 ∨ 122 < d.toNat)
    (h : lowerStr m = init ++ [d]) :
    ∃ m', m = m' ++ [d] := by
  have hrev : lowerStr m.reverse = d :: init.reverse := by
    unfold lowerStr
    rw [List.map_reverse]
    unfold lowerStr at h
    rw [h]
    simp
  obtain ⟨m', hm', -⟩ := lowerStr_eq_cons hd hrev
  refine ⟨m'.reverse, ?_⟩
  rw [← List.reverse_reverse m, hm']
  simp

/-- Stripping whitespace is the identity on a string whose first and last
characters are not whitespace. -/
theorem pyStrip_eq_self (l : List Char)
    (hh : ∀ c, l.head? = some c → isPySpace c = false)
    (hl : ∀ c, l.getLast? = some c → isPySpace c = false) :
    pyStrip l = l := by
  cases l with
  | nil => rfl
  | cons a l' =>
    have ha := hh a rfl
    unfold pyStrip
    rw [List.dropWhile_cons, if_neg (by simp [ha])]
    cases hrev : (a :: l').reverse with
    | nil => exact absurd hrev (by simp)
    | cons b r =>
      have hb : (a :: l').getLast? = some b := by
        rw [← List.head?_reverse, hrev]
        rfl
      have hbns := hl b hb
      rw [List.dropWhile_cons, if_neg (by simp [hbns])]
      rw [← hrev, List.reverse_reverse]

/-- The lazy `.*?</html>` scanner stops at the first closing tag whose suffix
check succeeds, capturing everything up to and including that tag. -/
theorem scanToCloseHtml_spec (d2 : List Char) :
    ∀ ct tail : List Char,
      lowerStr ct = "</html>".data →
      "```".data.isPrefixOf (tail.dropWhile isPySpace) = true →
      (∀ p, p < d2.length →
        stripPrefixCI "</html>".data ((d2 ++ (ct ++ tail)).drop p) = none) →
      scanToCloseHtml (d2 ++ (ct ++ tail)) = some (d2 ++ ct) := by
  induction d2 with
  | nil =>
    intro ct tail hct hfence _
    obtain ⟨ct9, hc0, -⟩ := lowerStr_eq_cons (Or.inl (by decide))
      (show lowerStr ct = '<' :: "/html>".data from hct)
    subst hc0
    rw [List.nil_append, List.cons_append, scanToCloseHtml]
    have hstrip : stripPrefixCI "</html>".data ('<' :: (ct9 ++ tail)) =
        some ('<' :: ct9, tail) := by
      rw [← List.cons_append]
      exact stripPrefixCI_of_lowerStr _ _ _ (by rw [hct]; decide)
    rw [hstrip]
    simp [hfence]
  | cons c d2' ih =>
    intro ct tail hct hfence hno
    rw [List.cons_append, scanToCloseHtml]
    have h0 := hno 0 (by simp)
    rw [List.cons_append, List.drop_zero] at h0
    rw [h0]
    have hno' : ∀ p, p < d2'.length →
        stripPrefixCI "</html>".data ((d2' ++ (ct ++ tail)).drop p) = none := by
      intro p hp
      have := hno (p + 1) (by simpa using Nat.succ_lt_succ hp)
      rwa [List.cons_append, List.drop_succ_cons] at this
    rw [ih ct tail hct hfence hno']
    simp

/-- Full match of the fenced-block pattern at its start position. -/
theorem tryFencedAt_spec (fence ws1 dt d1 d2 ct ws2 post : List Char)
    (hf : lowerStr fence = "```html".data)
    (hws1 : ∀ c ∈ ws1, isPySpace c = true)
    (hdt : lowerStr dt = "<!doctype html".data)
    (hd1 : ∀ c ∈ d1, c ≠ '>')
    (hct : lowerStr ct = "</html>".data)
    (hws2 : ∀ c ∈ ws2, isPySpace c = true)
    (hno : ∀ p, p < d2.length →
      stripPrefixCI "</html>".data
        ((d2 ++ (ct ++ (ws2 ++ ("```".data ++ post)))).drop p) = none) :
    tryFencedAt (fence ++ (ws1 ++ (dt ++ (d1 ++ ('>' ::
        (d2 ++ (ct ++ (ws2 ++ ("```".data ++ post))))))))) =
      some (dt ++ (d1 ++ ('>' :: (d2 ++ ct)))) := by
  obtain ⟨dt9, hdt0, -⟩ := lowerStr_eq_cons (Or.inl (by decide))
    (show lowerStr dt = '<' :: "!doctype html".data from hdt)
  have h1 : stripPrefixCI "```html".data
      (fence ++ (ws1 ++ (dt ++ (d1 ++ ('>' ::
        (d2 ++ (ct ++ (ws2 ++ ("```".data ++ post))))))))) =
      some (fence, ws1 ++ (dt ++ (d1 ++ ('>' ::
        (d2 ++ (ct ++ (ws2 ++ ("```".data ++ post)))))))) :=
    stripPrefixCI_of_lowerStr _ _ _ (by rw [hf]; decide)
  have h2 : (ws1 ++ (dt ++ (d1 ++ ('>' ::
      (d2 ++ (ct ++ (ws2 ++ ("```".data ++ post)))))))).dropWhile isPySpace =
      dt ++ (d1 ++ ('>' :: (d2 ++ (ct ++ (ws2 ++ ("```".data ++ post)))))) := by
    rw [dropWhile_append_of_all _ ws1 _ hws1, hdt0, List.cons_append,
      List.dropWhile_cons, if_neg (by decide), ← List.cons_append]
  have h3 : stripPrefixCI "<!DOCTYPE html".data
      (dt ++ (d1 ++ ('>' :: (d2 ++ (ct ++ (ws2 ++ ("```".data ++ post))))))) =
      some (dt, d1 ++ ('>' :: (d2 ++ (ct ++ (ws2 ++ ("```".data ++ post)))))) :=
    stripPrefixCI_of_lowerStr _ _ _ (by rw [hdt]; decide)
  have h4 : scanToGt (d1 ++ ('>' ::
      (d2 ++ (ct ++ (ws2 ++ ("```".data ++ post)))))) =
      some (d1 ++ ['>'], d2 ++ (ct ++ (ws2 ++ ("```".data ++ post)))) :=
    scanToGt_spec d1 _ hd1
  have hfence : "```".data.isPrefixOf
      ((ws2 ++ ("```".data ++ post)).dropWhile isPySpace) = true := by
    rw [dropWhile_append_of_all _ ws2 _ hws2]
    have hbt : ("```".data ++ post) = '\x60' :: ("``".data ++ post) := rfl
    rw [hbt, List.dropWhile_cons, if_neg (by decide), ← hbt]
    exact isPrefixOf_append_self _ _
  have h5 : scanToCloseHtml (d2 ++ (ct ++ (ws2 ++ ("```".data ++ post)))) =
      some (d2 ++ ct) :=
    scanToCloseHtml_spec d2 ct _ hct hfence hno
  unfold tryFencedAt
  rw [h1]
  simp only [h2, h3, h4, h5]
  simp [List.append_assoc]

/-- The leftmost search skips any backtick-free prefix. -/
theorem searchFenced_append (pre rest : List Char)
    (hp : ∀ c ∈ pre, c ≠ '\x60') :
    searchFenced (pre ++ rest) = searchFenced rest := by
  induction pre with
  | nil => rfl
  | cons c pre' ih =>
    rw [List.cons_append, searchFenced]
    have hpat : "```html".data = '\x60' :: "``html".data := rfl
    have hne : lowerChar c ≠ lowerChar '\x60' := by
      intro hlc
      have : c = '\x60' := eq_of_lowerChar_eq (Or.inl (by decide))
        (by simpa using hlc)
      exact hp c (List.mem_cons_self _ _) this
    have hstrip : stripPrefixCI "```html".data (c :: (pre' ++ rest)) = none := by
      rw [hpat]
      exact stripPrefixCI_cons_ne _ _ _ _ hne
    have htry : tryFencedAt (c :: (pre' ++ rest)) = none := by
      unfold tryFencedAt
      rw [hstrip]
    rw [htry]
    exact ih (fun x hx => hp x (List.mem_cons_of_mem _ hx))

/-- C3: behaviour of the response parser and its effect on the job.
Part 1: a completion containing a fenced `html` block (case-insensitive
opening, whitespace allowed inside the fence) that holds a full document from
the `<!DOCTYPE html` declaration through the first effective `</html>` closing
tag is parsed to exactly that inner document, whitespace-trimmed (the capture
starts at `<` and ends at `>`, so trimming is the identity).
Part 2: with no fenced match, a completion whose trimmed text itself starts
with the document declaration (case-insensitive) is taken whole as payload.
Part 3: otherwise extraction returns no payload.
Part 4: in that case the job fails: no report is written and the terminal
outcome is the no-valid-HTML `error_file`. -/
theorem C3_payload_extraction :
    (∀ pre fence ws1 dt d1 d2 ct ws2 post : List Char,
      (∀ c ∈ pre, c ≠ '\x60') →
      lowerStr fence = "```html".data →
      (∀ c ∈ ws1, isPySpace c = true) →
      lowerStr dt = "<!doctype html".data →
      (∀ c ∈ d1, c ≠ '>') →
      lowerStr ct = "</html>".data →
      (∀ c ∈ ws2, isPySpace c = true) →
      (∀ p, p < d2.length →
        stripPrefixCI "</html>".data
          ((d2 ++ (ct ++ (ws2 ++ ("```".data ++ post)))).drop p) = none) →
      extract_html_from_markdown
          (pre ++ (fence ++ (ws1 ++ (dt ++ (d1 ++ ('>' ::
            (d2 ++ (ct ++ (ws2 ++ ("```".data ++ post)))))))))) =
        some (dt ++ (d1 ++ ('>' :: (d2 ++ ct))))) ∧
    (∀ s : List Char, searchFenced s = none →
      "<!doctype html".data.isPrefixOf (lowerStr (pyStrip s)) = true →
      extract_html_from_markdown s = some (pyStrip s)) ∧
    (∀ s : List Char, searchFenced s = none →
      "<!doctype html".data.isPrefixOf (lowerStr (pyStrip s)) = false →
      extract_html_from_markdown s = none) ∧
    (∀ env : Env, (env.fileBytes).isSome = true →
      ((send_code_to_gemini (envAvailable env) env.net).isEmpty ||
        "Erro:".data.isPrefixOf (send_code_to_gemini (envAvailable env) env.net)) = false →
      extract_html_from_markdown (send_code_to_gemini (envAvailable env) env.net) = none →
      (AuditWorker.run env).written = none ∧
      Signal.errorFile env.filePath
          "(RuntimeError): A IA não retornou um bloco HTML válido.".data
        ∈ (AuditWorker.run env).signals) := by
  refine ⟨?_, ?_, ?_, ?_⟩
  · intro pre fence ws1 dt d1 d2 ct ws2 post hpre hf hws1 hdt hd1 hct hws2 hno
    have hsearch : searchFenced
        (pre ++ (fence ++ (ws1 ++ (dt ++ (d1 ++ ('>' ::
          (d2 ++ (ct ++ (ws2 ++ ("```".data ++ post)))))))))) =
        some (dt ++ (d1 ++ ('>' :: (d2 ++ ct)))) := by
      rw [searchFenced_append pre _ hpre]
      obtain ⟨fence', hfe, -⟩ := lowerStr_eq_cons (Or.inl (by decide))
        (show lowerStr fence = '\x60' :: "``html".data from hf)
      subst hfe
      rw [List.cons_append, searchFenced, ← List.cons_append,
        tryFencedAt_spec _ ws1 dt d1 d2 ct ws2 post hf hws1 hdt hd1 hct hws2 hno]
    have hstrip_doc : pyStrip (dt ++ (d1 ++ ('>' :: (d2 ++ ct)))) =
        dt ++ (d1 ++ ('>' :: (d2 ++ ct))) := by
      obtain ⟨dt9, hdt0, -⟩ := lowerStr_eq_cons (Or.inl (by decide))
        (show lowerStr dt = '<' :: "!doctype html".data from hdt)
      obtain ⟨ct8, hct8⟩ := lowerStr_eq_concat (Or.inl (by decide))
        (show lowerStr ct = "</html".data ++ ['>'] from hct)
      apply pyStrip_eq_self
      · intro c hc
        rw [hdt0, List.cons_append] at hc
        simp only [List.head?_cons, Option.some.injEq] at hc
        subst hc
        decide
      · intro c hc
        have hsplit : dt ++ (d1 ++ ('>' :: (d2 ++ ct))) =
            (dt ++ (d1 ++ ('>' :: (d2 ++ ct8)))) ++ ['>'] := by
          rw [hct8]
          simp [List.append_assoc]
        rw [hsplit, List.getLast?_concat] at hc
        simp only [Option.some.injEq] at hc
        subst hc
        decide
    unfold extract_html_from_markdown
    simp only [hsearch, hstrip_doc]
  · intro s h1 h2
    unfold extract_html_from_markdown
    simp [h1, h2]
  · intro s h1 h2
    unfold extract_html_from_markdown
    simp [h1, h2]
  · intro env hbs hc hx
    obtain ⟨bs, hread⟩ := Option.isSome_iff_exists.mp hbs
    obtain ⟨meta, hm⟩ : ∃ meta, get_file_metadata env = some meta := by
      unfold get_file_metadata
      rw [hread]
      exact ⟨_, rfl⟩
    rw [run_no_html env meta hm hc hx]
    exact ⟨rfl, by simp⟩

/-- C3 witness: a fenced completion, a bare-document completion, a payload-free
completion, and the failing job on the payload-free completion. -/
theorem C3_payload_extraction_witness :
    extract_html_from_markdown
        "Report: ```html\n<!DOCTYPE html><body>ok</body></html>\n``` end".data =
      some "<!DOCTYPE html><body>ok</body></html>".data ∧
    extract_html_from_markdown "   <!DOCTYPE html><p>q</p></html>  ".data =
      some "<!DOCTYPE html><p>q</p></html>".data ∧
    extract_html_from_markdown "plain text".data = none ∧
    (AuditWorker.run envNoHtml).written = none ∧
    Signal.errorFile "/tmp/n.py".data
        "(RuntimeError): A IA não retornou um bloco HTML válido.".data
      ∈ (AuditWorker.run envNoHtml).signals := by
  have h4 := C3_payload_extraction.2.2.2 envNoHtml rfl (by decide) (by decide)
  refine ⟨?_, ?_, ?_, h4.1, h4.2⟩
  · exact C3_payload_extraction.1 "Report: ".data "```html".data "\n".data
      "<!DOCTYPE html".data [] "<body>ok</body>".data "</html>".data "\n".data
      " end".data (by decide) (by decide) (by decide) (by decide) (by decide)
      (by decide) (by decide) (by decide)
  · exact C3_payload_extraction.2.1 "   <!DOCTYPE html><p>q</p></html>  ".data
      (by decide) (by decide)
  · exact C3_payload_extraction.2.2.1 "plain text".data (by decide) (by decide)
